import Mathlib

/-!
Verification of the position ledger and exit-order derivation engine of
zipline-trader.

The embedding below translates src/zipline/finance/position.py and
src/zipline/finance/rounding.py into Lean. Python floats are embedded as
rationals, pandas timestamps as integers, and None as Option. Stateful
methods that can raise are embedded as functions returning the final state
of the object together with an optional error, so that any mutation
performed before an exception is visible in the result.
-/

namespace ZiplineTrader

/-- Rounding of a rational to the nearest integer with ties sent to the
even integer, matching the Python 3 builtin round on exact values. -/
def roundHalfEven (q : ℚ) : ℤ :=
  let f := ⌊q⌋
  let r := q - (f : ℚ)
  if r < 1 / 2 then f
  else if 1 / 2 < r then f + 1
  else if f % 2 = 0 then f else f + 1

/-- Rounding to two decimal places, as the Python expression round(x, 2)
used in position.py. -/
def round2 (q : ℚ) : ℚ :=
  (roundHalfEven (q * 100) : ℚ) / 100

/-- Truncation toward zero, as the Python builtin int applied to a float
in rounding.py. -/
def truncQ (q : ℚ) : ℤ :=
  if 0 ≤ q then ⌊q⌋ else ⌈q⌉

/-- Modelled from the spec: the helper round_if_near_integer from
zipline.utils.math_utils is not among the supplied sources. The spec
describes the behavior as correcting floating-point noise by replacing a
quantity with the nearest integer exactly when the quantity already lies
within a small epsilon of that integer, and returning it unchanged
otherwise. The epsilon is kept as an explicit parameter. -/
def round_if_near_integer (a eps : ℚ) : ℚ :=
  if |a - (roundHalfEven a : ℚ)| ≤ eps then (roundHalfEven a : ℚ) else a

/-- FullSharesRounding.round_order from rounding.py: apply the
near-integer correction and truncate to an integer. -/
def round_order_full (eps amount : ℚ) : ℚ :=
  (truncQ (round_if_near_integer amount eps) : ℚ)

/-- FractionalSharesRounding.round_order from rounding.py: divide by the
precision, apply the near-integer correction, truncate, and multiply the
precision back. -/
def round_order_fractional (eps precision amount : ℚ) : ℚ :=
  (truncQ (round_if_near_integer (amount / precision) eps) : ℚ) * precision

/-- An asset as far as the ledger needs it: an identity, a tick size, and
for derivatives a price multiplier. The isFuture flag embeds the Python
test isinstance(asset, Future). -/
structure Asset where
  sid : ℕ
  tick_size : ℚ
  isFuture : Bool
  price_multiplier : ℚ
deriving DecidableEq

/-- A transaction as in src/zipline/finance/transaction.py; order_id and
the datasource type tag play no role in the ledger and are omitted. -/
structure Transaction where
  asset : Asset
  amount : ℚ
  dt : ℤ
  price : ℚ
  take_profit_price : Option ℚ
  stop_loss_price : Option ℚ
deriving DecidableEq

/-- The mutable state of a position, the fields of zp.InnerPosition that
Position in position.py delegates to. -/
structure Position where
  asset : Asset
  amount : ℚ
  cost_basis : ℚ
  last_sale_price : ℚ
  last_sale_date : Option ℤ
  take_profit_price : ℚ
  stop_loss_price : ℚ
deriving DecidableEq

/-- A fresh position as built by the Position constructor defaults. -/
def initial_position (a : Asset) : Position :=
  { asset := a, amount := 0, cost_basis := 0, last_sale_price := 0,
    last_sale_date := none, take_profit_price := 0, stop_loss_price := 0 }

/-- A cash dividend: asset tag and per-unit amount. -/
structure Dividend where
  asset : Asset
  amount : ℚ
deriving DecidableEq

/-- A stock dividend: asset tag, payment asset and conversion factor
(named ratio in the source). -/
structure StockDividend where
  asset : Asset
  payment_asset : Asset
  factor : ℚ
deriving DecidableEq

/-- The errors the ledger can raise: the generic Exception on an asset
mismatch and the ValueError on an exit-price validation failure. -/
inductive PosError where
  | assetMismatch
  | invalidExitPrice
deriving DecidableEq

/-- The external price quantizer asymmetric_round_price consumed by
position.py: price, direction flag, tick size. Its arithmetic is out of
scope, so the ledger operations are parameterized over it. -/
def Quantizer : Type :=
  ℚ → Bool → ℚ → ℚ

/-- copysign 1 x as used in position.py; a rational has no negative zero,
so the sign of zero is positive one, as for the Python float 0.0. -/
def sign1 (x : ℚ) : ℚ :=
  if x < 0 then -1 else 1

/-- Direction flag passed to the quantizer for a take-profit price: the
Python expression not amount > 0. -/
def tp_quant_direction (amount : ℚ) : Bool :=
  !(decide (amount > 0))

/-- Direction flag passed to the quantizer for a stop-loss price: the
Python expression amount > 0. -/
def sl_quant_direction (amount : ℚ) : Bool :=
  decide (amount > 0)

/-- The take-profit validation test of Position.update_exit_prices: the
check fires only when the current take_profit_price is non-zero, a last
sale price was supplied, and the new level is less favorable than the
last sale price in the resulting direction. -/
def tp_check_fails (dir tp cur : ℚ) (lsp : Option ℚ) : Bool :=
  decide (cur ≠ 0) &&
    match lsp with
    | none => false
    | some l => decide (dir * tp < dir * l)

/-- The stop-loss validation test of Position.update_exit_prices,
symmetric to the take-profit test with the inequality reversed. -/
def sl_check_fails (dir sl cur : ℚ) (lsp : Option ℚ) : Bool :=
  decide (cur ≠ 0) &&
    match lsp with
    | none => false
    | some l => decide (dir * sl > dir * l)

/-- Position.update_exit_prices from position.py. The take-profit block
runs first: it validates, then assigns the quantized level. If it raises,
the stop-loss block never runs and the object keeps the state reached so
far. The amount argument defaults to the stored amount; the last sale
price argument defaults to None, which disables both validations. -/
def update_exit_prices (quant : Quantizer) (p : Position)
    (take_profit_price stop_loss_price : Option ℚ)
    (amount : Option ℚ) (last_sale_price : Option ℚ) :
    Position × Option PosError :=
  let amt := amount.getD p.amount
  let dir := sign1 amt
  let r1 : Position × Option PosError :=
    match take_profit_price with
    | none => (p, none)
    | some tp =>
        if tp_check_fails dir tp p.take_profit_price last_sale_price then
          (p, some PosError.invalidExitPrice)
        else
          let newTp := quant tp (tp_quant_direction amt) p.asset.tick_size
          ({ p with take_profit_price := newTp }, none)
  if r1.2.isSome then r1
  else
    match stop_loss_price with
    | none => r1
    | some sl =>
        if sl_check_fails dir sl r1.1.stop_loss_price last_sale_price then
          (r1.1, some PosError.invalidExitPrice)
        else
          let newSl := quant sl (sl_quant_direction amt) r1.1.asset.tick_size
          ({ r1.1 with stop_loss_price := newSl }, none)

/-- Position.update from position.py, the merge of a transaction into the
position. An asset mismatch raises before any mutation. When the combined
size is within 1e-3 of zero the basis and both exit levels are reset and
the amount committed; otherwise the cost basis is recomputed by sign
comparison, the last sale data refreshed if the transaction is newer, the
exit instructions of the transaction forwarded to update_exit_prices with
the post-merge amount and the refreshed last sale price, and finally the
amount committed. An exit-price failure propagates with the mutations
performed up to that point. -/
def update (quant : Quantizer) (p : Position) (txn : Transaction) :
    Position × Option PosError :=
  if p.asset ≠ txn.asset then (p, some PosError.assetMismatch)
  else
    let total_shares := p.amount + txn.amount
    if |total_shares| < 1 / 1000 then
      ({ p with cost_basis := 0, take_profit_price := 0, stop_loss_price := 0, amount := total_shares }, none)
    else
      let p1 :=
        if sign1 p.amount ≠ sign1 txn.amount then
          if |txn.amount| > |p.amount| then { p with cost_basis := txn.price }
          else p
        else
          { p with cost_basis := (p.cost_basis * p.amount + txn.amount * txn.price) / total_shares }
      let newer :=
        match p1.last_sale_date with
        | none => true
        | some d => decide (txn.dt > d)
      let p2 :=
        if newer then
          { p1 with last_sale_price := txn.price, last_sale_date := some txn.dt }
        else p1
      let r := update_exit_prices quant p2 txn.take_profit_price
        txn.stop_loss_price (some total_shares) (some p2.last_sale_price)
      if r.2.isSome then r else ({ r.1 with amount := total_shares }, none)

/-- Sequential application of Position.update to a list of transactions,
stopping at the first raised error as the Python exception would. -/
def update_all (quant : Quantizer) (p : Position) :
    List Transaction → Position × Option PosError
  | [] => (p, none)
  | t :: ts =>
      let r := update quant p t
      if r.2.isSome then r else update_all quant r.1 ts

/-- Position.handle_split from position.py: on a matching asset, floor
the amount divided by the split factor, rescale the cost basis to the
nearest cent, return the fractional residue as cash, and rescale each
non-zero exit level to the nearest cent. -/
def handle_split (p : Position) (asset : Asset) (factor : ℚ) :
    (Position × ℚ) × Option PosError :=
  if p.asset ≠ asset then ((p, 0), some PosError.assetMismatch)
  else
    let raw_share_count := p.amount / factor
    let full_share_count : ℚ := (⌊raw_share_count⌋ : ℚ)
    let fractional_share_count := raw_share_count - full_share_count
    let new_cost_basis := round2 (p.cost_basis * factor)
    let p1 := { p with cost_basis := new_cost_basis, amount := full_share_count }
    let return_cash := round2 (fractional_share_count * new_cost_basis)
    let p2 :=
      if p1.take_profit_price ≠ 0 then
        { p1 with take_profit_price := round2 (p1.take_profit_price * factor) }
      else p1
    let p3 :=
      if p2.stop_loss_price ≠ 0 then
        { p2 with stop_loss_price := round2 (p2.stop_loss_price * factor) }
      else p2
    ((p3, return_cash), none)

/-- Position.earn_dividend from position.py: the cash entitlement held at
the ex date. The method performs no asset check and never mutates the
position. -/
def earn_dividend (p : Position) (d : Dividend) : ℚ :=
  p.amount * d.amount

/-- Position.earn_stock_dividend from position.py: the payment asset and
the floored share count. The method performs no asset check and never
mutates the position. -/
def earn_stock_dividend (p : Position) (sd : StockDividend) : Asset × ℚ :=
  (sd.payment_asset, (⌊p.amount * sd.factor⌋ : ℚ))

/-- Position.adjust_commission_cost_basis from position.py: an asset
mismatch raises; a zero cost or a zero amount is a no-op; otherwise the
commission, divided by the price multiplier for a future, is folded into
the volume-weighted cost basis. -/
def adjust_commission_cost_basis (p : Position) (asset : Asset) (cost : ℚ) :
    Position × Option PosError :=
  if asset ≠ p.asset then (p, some PosError.assetMismatch)
  else if cost = 0 then (p, none)
  else if p.amount = 0 then (p, none)
  else
    let prev_cost := p.cost_basis * p.amount
    let cost_to_use := if asset.isFuture then cost / asset.price_multiplier else cost
    (({ p with cost_basis := (prev_cost + cost_to_use) / p.amount }), none)

/-- The identity quantizer, used to instantiate theorems at concrete
inputs. -/
def idQuant : Quantizer :=
  fun price _ _ => price

/-- A concrete equity asset for concrete instantiations. -/
def assetA : Asset :=
  { sid := 0, tick_size := 1 / 100, isFuture := false, price_multiplier := 1 }

/-- A second concrete asset, distinct from assetA. -/
def assetB : Asset :=
  { sid := 1, tick_size := 1 / 100, isFuture := false, price_multiplier := 1 }

end ZiplineTrader

namespace ZiplineTrader

/-! ## Helper lemmas shared by the claim theorems -/

theorem roundHalfEven_intCast (n : ℤ) : roundHalfEven (n : ℚ) = n := by
  unfold roundHalfEven
  simp only [Int.floor_intCast, sub_self]
  norm_num

theorem round_if_near_integer_intCast (n : ℤ) (eps : ℚ) :
    round_if_near_integer (n : ℚ) eps = (n : ℚ) := by
  unfold round_if_near_integer
  rw [roundHalfEven_intCast]
  split_ifs <;> rfl

theorem truncQ_intCast (n : ℤ) : truncQ (n : ℚ) = n := by
  unfold truncQ
  split_ifs <;> simp

theorem uep_fst_asset (quant : Quantizer) (p : Position)
    (tpO slO amtO lspO : Option ℚ) :
    (update_exit_prices quant p tpO slO amtO lspO).1.asset = p.asset := by
  unfold update_exit_prices
  cases tpO <;> cases slO <;> simp <;> split_ifs <;> simp

theorem uep_fst_amount (quant : Quantizer) (p : Position)
    (tpO slO amtO lspO : Option ℚ) :
    (update_exit_prices quant p tpO slO amtO lspO).1.amount = p.amount := by
  unfold update_exit_prices
  cases tpO <;> cases slO <;> simp <;> split_ifs <;> simp

theorem uep_fst_cost_basis (quant : Quantizer) (p : Position)
    (tpO slO amtO lspO : Option ℚ) :
    (update_exit_prices quant p tpO slO amtO lspO).1.cost_basis = p.cost_basis := by
  unfold update_exit_prices
  cases tpO <;> cases slO <;> simp <;> split_ifs <;> simp

theorem uep_fst_last_sale_price (quant : Quantizer) (p : Position)
    (tpO slO amtO lspO : Option ℚ) :
    (update_exit_prices quant p tpO slO amtO lspO).1.last_sale_price = p.last_sale_price := by
  unfold update_exit_prices
  cases tpO <;> cases slO <;> simp <;> split_ifs <;> simp

theorem uep_fst_last_sale_date (quant : Quantizer) (p : Position)
    (tpO slO amtO lspO : Option ℚ) :
    (update_exit_prices quant p tpO slO amtO lspO).1.last_sale_date = p.last_sale_date := by
  unfold update_exit_prices
  cases tpO <;> cases slO <;> simp <;> split_ifs <;> simp

theorem uep_snd_ne_mismatch (quant : Quantizer) (p : Position)
    (tpO slO amtO lspO : Option ℚ) :
    (update_exit_prices quant p tpO slO amtO lspO).2 ≠ some PosError.assetMismatch := by
  unfold update_exit_prices
  cases tpO <;> cases slO <;> simp <;> split_ifs <;> simp

end ZiplineTrader

namespace ZiplineTrader

theorem update_mismatch (quant : Quantizer) (p : Position) (txn : Transaction)
    (h : p.asset ≠ txn.asset) :
    update quant p txn = (p, some PosError.assetMismatch) := by
  simp only [update]
  rw [if_pos h]

theorem update_flatten (quant : Quantizer) (p : Position) (txn : Transaction)
    (hasset : p.asset = txn.asset) (hflat : |p.amount + txn.amount| < 1 / 1000) :
    update quant p txn =
      ({ p with cost_basis := 0, take_profit_price := 0, stop_loss_price := 0, amount := p.amount + txn.amount }, none) := by
  simp only [update]
  rw [if_neg (by simp [hasset]), if_pos hflat]

theorem update_ok_amount (quant : Quantizer) (p : Position) (txn : Transaction)
    (h : (update quant p txn).2 = none) :
    (update quant p txn).1.amount = p.amount + txn.amount := by
  by_cases hasset : p.asset ≠ txn.asset
  · rw [update_mismatch quant p txn hasset] at h
    simp at h
  · simp only [update, if_neg hasset] at h ⊢
    split_ifs at h ⊢ <;> simp_all

theorem update_mismatch_atomic (quant : Quantizer) (p : Position) (txn : Transaction)
    (h : (update quant p txn).2 = some PosError.assetMismatch) :
    (update quant p txn).1 = p := by
  by_cases hasset : p.asset ≠ txn.asset
  · rw [update_mismatch quant p txn hasset]
  · exfalso
    simp only [update, if_neg hasset] at h
    split_ifs at h <;> simp_all
    all_goals exact uep_snd_ne_mismatch _ _ _ _ _ _ h

theorem update_fst_cost_basis (quant : Quantizer) (p : Position) (txn : Transaction)
    (hasset : p.asset = txn.asset) (hflat : ¬ |p.amount + txn.amount| < 1 / 1000) :
    (update quant p txn).1.cost_basis =
      if sign1 p.amount ≠ sign1 txn.amount then
        (if |txn.amount| > |p.amount| then txn.price else p.cost_basis)
      else (p.cost_basis * p.amount + txn.amount * txn.price) / (p.amount + txn.amount) := by
  simp only [update]
  rw [if_neg (by simp [hasset]), if_neg hflat]
  split_ifs <;> simp_all [uep_fst_cost_basis]

/-! ## Claim theorems -/

/-- C9: for every quantity and every rounding variant, whole-share and
fractional-share at any precision, and for any noise epsilon, applying
round_order twice returns the same value as applying it once. -/
theorem round_order_idempotent_c9 :
    (∀ eps q : ℚ, round_order_full eps (round_order_full eps q) = round_order_full eps q) ∧
    (∀ eps precision q : ℚ,
      round_order_fractional eps precision (round_order_fractional eps precision q) =
        round_order_fractional eps precision q) := by
  constructor
  · intro eps q
    unfold round_order_full
    rw [round_if_near_integer_intCast, truncQ_intCast]
  · intro eps precision q
    by_cases hp : precision = 0
    · subst hp
      simp [round_order_fractional]
    · unfold round_order_fractional
      rw [mul_div_cancel_right₀ _ hp, round_if_near_integer_intCast, truncQ_intCast]

end ZiplineTrader

namespace ZiplineTrader

theorem update_all_flatten_aux (quant : Quantizer) (ts : List Transaction) :
    ∀ (p : Position) (t : Transaction),
      |p.amount + ((t :: ts).map Transaction.amount).sum| < 1 / 1000 →
      (update_all quant p (t :: ts)).2 = none →
      (update_all quant p (t :: ts)).1.cost_basis = 0 ∧
      (update_all quant p (t :: ts)).1.take_profit_price = 0 ∧
      (update_all quant p (t :: ts)).1.stop_loss_price = 0 := by
  induction ts with
  | nil =>
      intro p t habs hok
      simp only [update_all] at hok
      by_cases hm : p.asset ≠ t.asset
      · rw [update_mismatch quant p t hm] at hok
        simp at hok
      · push_neg at hm
        have hfl := update_flatten quant p t hm (by simpa using habs)
        simp only [update_all]
        rw [hfl]
        simp [update_all]
  | cons t2 ts ih =>
      intro p t habs hok
      simp only [update_all] at hok ⊢
      by_cases hr : (update quant p t).2.isSome
      · rw [if_pos hr] at hok
        simp [hok] at hr
      · rw [if_neg hr] at hok ⊢
        have hok1 : (update quant p t).2 = none := Option.not_isSome_iff_eq_none.mp hr
        have hamt := update_ok_amount quant p t hok1
        apply ih
        · rw [hamt]
          simpa [List.sum_cons, add_assoc] using habs
        · exact hok

/-- C2: a same-asset merge whose combined size lies within 1e-3 of zero
resets the cost basis and both exit levels to zero and commits the
combined amount; consequently any successful sequence of transactions
starting from a fresh position and summing to within 1e-3 of zero leaves
all three fields at zero. -/
theorem merge_flatten_c2 :
    (∀ (quant : Quantizer) (p : Position) (txn : Transaction),
      p.asset = txn.asset → |p.amount + txn.amount| < 1 / 1000 →
      (update quant p txn).1.cost_basis = 0 ∧
      (update quant p txn).1.take_profit_price = 0 ∧
      (update quant p txn).1.stop_loss_price = 0 ∧
      (update quant p txn).1.amount = p.amount + txn.amount) ∧
    (∀ (quant : Quantizer) (a : Asset) (ts : List Transaction),
      |(ts.map Transaction.amount).sum| < 1 / 1000 →
      (update_all quant (initial_position a) ts).2 = none →
      (update_all quant (initial_position a) ts).1.cost_basis = 0 ∧
      (update_all quant (initial_position a) ts).1.take_profit_price = 0 ∧
      (update_all quant (initial_position a) ts).1.stop_loss_price = 0) := by
  constructor
  · intro quant p txn hasset hflat
    rw [update_flatten quant p txn hasset hflat]
    exact ⟨rfl, rfl, rfl, rfl⟩
  · intro quant a ts habs hok
    cases ts with
    | nil => simp [update_all, initial_position]
    | cons t ts =>
        exact update_all_flatten_aux quant ts (initial_position a) t
          (by simpa [initial_position] using habs) hok

/-- A concrete position with non-zero basis and exit levels. -/
def posW2 : Position :=
  { asset := assetA, amount := 1, cost_basis := 10, last_sale_price := 50,
    last_sale_date := some 0, take_profit_price := 60, stop_loss_price := 40 }

/-- A concrete sale that exactly flattens posW2. -/
def txnW2 : Transaction :=
  { asset := assetA, amount := -1, dt := 1, price := 55,
    take_profit_price := none, stop_loss_price := none }

theorem merge_flatten_c2_witness :
    (update idQuant posW2 txnW2).1.cost_basis = 0 ∧
    (update idQuant posW2 txnW2).1.take_profit_price = 0 ∧
    (update idQuant posW2 txnW2).1.stop_loss_price = 0 ∧
    (update idQuant posW2 txnW2).1.amount = posW2.amount + txnW2.amount :=
  merge_flatten_c2.1 idQuant posW2 txnW2 rfl (by norm_num [posW2, txnW2])

end ZiplineTrader

namespace ZiplineTrader

/-- A long position with a zero take-profit and a non-zero stop-loss,
used to exhibit the partial mutation of update_exit_prices. -/
def posW3 : Position :=
  { asset := assetA, amount := 1, cost_basis := 10, last_sale_price := 100,
    last_sale_date := some 0, take_profit_price := 0, stop_loss_price := 90 }

/-- C3 counterexample: one call to update_exit_prices that raises
InvalidExitPriceError on the stop-loss check after having already
assigned the take-profit field, so the error does not leave the position
unchanged. -/
theorem exit_price_atomicity_c3_counterexample :
    (update_exit_prices idQuant posW3 (some 110) (some 105) none (some 100)).2 =
      some PosError.invalidExitPrice ∧
    (update_exit_prices idQuant posW3 (some 110) (some 105) none (some 100)).1.take_profit_price = 110 ∧
    posW3.take_profit_price = 0 := by
  norm_num [update_exit_prices, posW3, idQuant, assetA, sign1, tp_check_fails,
    sl_check_fails, tp_quant_direction]

/-- C3 amended: an AssetMismatchError from merge, applySplit or
adjustCommissionCostBasis leaves the position unchanged, and an
InvalidExitPriceError from setExitPrices leaves the position unchanged
whenever the call carries at most one exit-price instruction; atomicity
fails only when a stop-loss rejection follows a take-profit assignment
inside the same call. -/
theorem ledger_error_atomicity_c3_amended :
    (∀ (quant : Quantizer) (p : Position) (txn : Transaction),
      (update quant p txn).2 = some PosError.assetMismatch → (update quant p txn).1 = p) ∧
    (∀ (p : Position) (a : Asset) (f : ℚ),
      (handle_split p a f).2.isSome → (handle_split p a f).1.1 = p) ∧
    (∀ (p : Position) (a : Asset) (c : ℚ),
      (adjust_commission_cost_basis p a c).2.isSome →
      (adjust_commission_cost_basis p a c).1 = p) ∧
    (∀ (quant : Quantizer) (p : Position) (tpO slO amtO lspO : Option ℚ),
      (update_exit_prices quant p tpO slO amtO lspO).2.isSome →
      tpO = none ∨ slO = none →
      (update_exit_prices quant p tpO slO amtO lspO).1 = p) := by
  refine ⟨update_mismatch_atomic, ?_, ?_, ?_⟩
  · intro p a f h
    simp only [handle_split] at h ⊢
    split_ifs at h ⊢ <;> simp_all
  · intro p a c h
    simp only [adjust_commission_cost_basis] at h ⊢
    split_ifs at h ⊢ <;> simp_all
  · intro quant p tpO slO amtO lspO h hcase
    rcases hcase with hc | hc
    · subst hc
      cases slO with
      | none => simp [update_exit_prices] at h
      | some sl =>
          simp only [update_exit_prices] at h ⊢
          split_ifs at h ⊢ <;> simp_all
    · subst hc
      cases tpO with
      | none => simp [update_exit_prices] at h
      | some tp =>
          simp only [update_exit_prices] at h ⊢
          split_ifs at h ⊢ <;> simp_all

/-- A transaction on a different asset than posW3. -/
def txnW3 : Transaction :=
  { asset := assetB, amount := 5, dt := 1, price := 7,
    take_profit_price := none, stop_loss_price := none }

theorem ledger_error_atomicity_c3_amended_witness :
    (update idQuant posW3 txnW3).1 = posW3 :=
  ledger_error_atomicity_c3_amended.1 idQuant posW3 txnW3
    (by rw [update_mismatch idQuant posW3 txnW3 (by norm_num [posW3, txnW3, assetA, assetB])])

end ZiplineTrader

namespace ZiplineTrader

/-- A long position with last sale price 100 and no exit levels set. -/
def posW4c : Position :=
  { asset := assetA, amount := 1, cost_basis := 10, last_sale_price := 100,
    last_sale_date := some 0, take_profit_price := 0, stop_loss_price := 0 }

/-- C4 counterexample: on a long position whose existing take-profit is
zero, requesting take_profit_price 95 against last sale price 100 does
not fail; the validation in the source only runs when the existing level
is non-zero. -/
theorem exit_price_rejection_c4_counterexample :
    posW4c.amount > 0 ∧ posW4c.last_sale_price = 100 ∧
    (update_exit_prices idQuant posW4c (some 95) none none (some 100)).2 = none := by
  norm_num [update_exit_prices, posW4c, idQuant, sign1, tp_check_fails,
    tp_quant_direction, assetA]

/-- C4 amended: for a long position whose existing take-profit and
stop-loss are non-zero and validated against a supplied last sale price
of 100, requesting take-profit 95 fails with InvalidExitPriceError and
leaves the position unchanged, requesting stop-loss 105 fails likewise,
and requesting take-profit 110 or stop-loss 90 succeeds. -/
theorem exit_price_rejection_c4_amended (quant : Quantizer) (p : Position)
    (hlong : p.amount > 0) (htp : p.take_profit_price ≠ 0)
    (hsl : p.stop_loss_price ≠ 0) :
    ((update_exit_prices quant p (some 95) none none (some 100)).2 =
        some PosError.invalidExitPrice ∧
      (update_exit_prices quant p (some 95) none none (some 100)).1 = p) ∧
    ((update_exit_prices quant p none (some 105) none (some 100)).2 =
        some PosError.invalidExitPrice ∧
      (update_exit_prices quant p none (some 105) none (some 100)).1 = p) ∧
    (update_exit_prices quant p (some 110) none none (some 100)).2 = none ∧
    (update_exit_prices quant p none (some 90) none (some 100)).2 = none := by
  have hdir : sign1 p.amount = 1 := by
    simp [sign1, not_lt.mpr hlong.le]
  refine ⟨⟨?_, ?_⟩, ⟨?_, ?_⟩, ?_, ?_⟩ <;>
    simp [update_exit_prices, hdir, tp_check_fails, sl_check_fails, htp, hsl] <;>
    norm_num

/-- A long position with both exit levels set, for instantiating the
amended C4 statement. -/
def posW4 : Position :=
  { asset := assetA, amount := 1, cost_basis := 10, last_sale_price := 100,
    last_sale_date := some 0, take_profit_price := 120, stop_loss_price := 80 }

theorem exit_price_rejection_c4_amended_witness :
    ((update_exit_prices idQuant posW4 (some 95) none none (some 100)).2 =
        some PosError.invalidExitPrice ∧
      (update_exit_prices idQuant posW4 (some 95) none none (some 100)).1 = posW4) ∧
    ((update_exit_prices idQuant posW4 none (some 105) none (some 100)).2 =
        some PosError.invalidExitPrice ∧
      (update_exit_prices idQuant posW4 none (some 105) none (some 100)).1 = posW4) ∧
    (update_exit_prices idQuant posW4 (some 110) none none (some 100)).2 = none ∧
    (update_exit_prices idQuant posW4 none (some 90) none (some 100)).2 = none :=
  exit_price_rejection_c4_amended idQuant posW4 (by norm_num [posW4])
    (by norm_num [posW4]) (by norm_num [posW4])

end ZiplineTrader

namespace ZiplineTrader

/-- A long position with stale last sale data, flattened by txnW5. -/
def posW5 : Position :=
  { asset := assetA, amount := 1, cost_basis := 10, last_sale_price := 50,
    last_sale_date := some 0, take_profit_price := 0, stop_loss_price := 0 }

/-- A strictly newer transaction that exactly flattens posW5. -/
def txnW5 : Transaction :=
  { asset := assetA, amount := -1, dt := 5, price := 60,
    take_profit_price := none, stop_loss_price := none }

/-- C5 counterexample: a non-raising merge whose transaction is strictly
newer than the stored last sale date but whose combined size is within
1e-3 of zero leaves last_sale_price and last_sale_date untouched, because
the flatten branch never refreshes them. -/
theorem last_sale_monotonic_c5_counterexample :
    (update idQuant posW5 txnW5).2 = none ∧
    posW5.last_sale_date = some 0 ∧ txnW5.dt = 5 ∧ txnW5.price = 60 ∧
    (update idQuant posW5 txnW5).1.last_sale_price = 50 ∧
    (update idQuant posW5 txnW5).1.last_sale_date = some 0 := by
  have h := update_flatten idQuant posW5 txnW5 rfl (by norm_num [posW5, txnW5])
  rw [h]
  norm_num [posW5, txnW5]

/-- C5 amended: for a merge that does not raise and whose combined size
is at least 1e-3 away from zero, a strictly newer or first observation
overwrites last_sale_price and last_sale_date and anything else leaves
them unchanged; when the combined size is within 1e-3 of zero both
fields are always left unchanged. -/
theorem last_sale_update_c5_amended (quant : Quantizer) (p : Position)
    (txn : Transaction) (hok : (update quant p txn).2 = none) :
    (¬ |p.amount + txn.amount| < 1 / 1000 →
      ((p.last_sale_date = none ∨ (∃ d, p.last_sale_date = some d ∧ txn.dt > d)) →
        (update quant p txn).1.last_sale_price = txn.price ∧
        (update quant p txn).1.last_sale_date = some txn.dt) ∧
      (∀ d, p.last_sale_date = some d → ¬ txn.dt > d →
        (update quant p txn).1.last_sale_price = p.last_sale_price ∧
        (update quant p txn).1.last_sale_date = p.last_sale_date)) ∧
    (|p.amount + txn.amount| < 1 / 1000 →
      (update quant p txn).1.last_sale_price = p.last_sale_price ∧
      (update quant p txn).1.last_sale_date = p.last_sale_date) := by
  by_cases hm : p.asset ≠ txn.asset
  · rw [update_mismatch quant p txn hm] at hok
    simp at hok
  · push_neg at hm
    have hne : ¬ p.asset ≠ txn.asset := by simp [hm]
    constructor
    · intro hflat
      constructor
      · intro hnew
        simp only [update, if_neg hne, if_neg hflat] at hok ⊢
        rcases hnew with hd | ⟨d, hd, hgt⟩ <;>
          split_ifs at hok ⊢ <;>
          simp_all [uep_fst_last_sale_price, uep_fst_last_sale_date]
      · intro d hd hgt
        simp only [update, if_neg hne, if_neg hflat] at hok ⊢
        split_ifs at hok ⊢ <;>
          simp_all [uep_fst_last_sale_price, uep_fst_last_sale_date] <;>
          omega
    · intro hflat
      rw [update_flatten quant p txn hm hflat]
      exact ⟨rfl, rfl⟩

/-- A long position with stale last sale data, doubled by txnW5w. -/
def posW5w : Position :=
  { asset := assetA, amount := 1, cost_basis := 10, last_sale_price := 50,
    last_sale_date := some 0, take_profit_price := 0, stop_loss_price := 0 }

/-- A strictly newer same-direction buy on posW5w. -/
def txnW5w : Transaction :=
  { asset := assetA, amount := 1, dt := 5, price := 60,
    take_profit_price := none, stop_loss_price := none }

theorem last_sale_update_c5_amended_witness :
    (update idQuant posW5w txnW5w).1.last_sale_price = txnW5w.price ∧
    (update idQuant posW5w txnW5w).1.last_sale_date = some txnW5w.dt := by
  have hok : (update idQuant posW5w txnW5w).2 = none := by
    norm_num [update, update_exit_prices, posW5w, txnW5w, idQuant, sign1, assetA]
  exact ((last_sale_update_c5_amended idQuant posW5w txnW5w hok).1
    (by norm_num [posW5w, txnW5w])).1 (Or.inr ⟨0, rfl, by norm_num [txnW5w]⟩)

end ZiplineTrader

namespace ZiplineTrader

/-- C6: on a matching asset, handle_split floors the amount divided by
the split factor, rescales the cost basis to the nearest cent, returns
the fractional residue times the new basis rounded to the nearest cent as
cash, rescales each non-zero exit level to the nearest cent, and touches
nothing else. -/
theorem handle_split_spec_c6 (p : Position) (asset : Asset) (factor : ℚ)
    (hasset : p.asset = asset) :
    (handle_split p asset factor).2 = none ∧
    (handle_split p asset factor).1.1.amount = (⌊p.amount / factor⌋ : ℚ) ∧
    (handle_split p asset factor).1.1.cost_basis = round2 (p.cost_basis * factor) ∧
    (handle_split p asset factor).1.2 =
      round2 ((p.amount / factor - (⌊p.amount / factor⌋ : ℚ)) * round2 (p.cost_basis * factor)) ∧
    (p.take_profit_price ≠ 0 →
      (handle_split p asset factor).1.1.take_profit_price = round2 (p.take_profit_price * factor)) ∧
    (p.take_profit_price = 0 → (handle_split p asset factor).1.1.take_profit_price = 0) ∧
    (p.stop_loss_price ≠ 0 →
      (handle_split p asset factor).1.1.stop_loss_price = round2 (p.stop_loss_price * factor)) ∧
    (p.stop_loss_price = 0 → (handle_split p asset factor).1.1.stop_loss_price = 0) ∧
    (handle_split p asset factor).1.1.asset = p.asset ∧
    (handle_split p asset factor).1.1.last_sale_price = p.last_sale_price ∧
    (handle_split p asset factor).1.1.last_sale_date = p.last_sale_date := by
  have hne : ¬ p.asset ≠ asset := by simp [hasset]
  simp only [handle_split, if_neg hne]
  split_ifs <;> simp_all

/-- The split example position: 100 shares at cost basis 30. -/
def posW6 : Position :=
  { asset := assetA, amount := 100, cost_basis := 30, last_sale_price := 0,
    last_sale_date := none, take_profit_price := 0, stop_loss_price := 0 }

theorem handle_split_spec_c6_witness :
    (handle_split posW6 assetA 3).1.1.amount = 33 ∧
    (handle_split posW6 assetA 3).1.1.cost_basis = 90 ∧
    (handle_split posW6 assetA 3).1.2 = 30 := by
  have h := handle_split_spec_c6 posW6 assetA 3 rfl
  refine ⟨?_, ?_, ?_⟩
  · rw [h.2.1]
    norm_num [posW6]
  · rw [h.2.2.1]
    norm_num [posW6, round2, roundHalfEven]
  · rw [h.2.2.2.1]
    norm_num [posW6, round2, roundHalfEven]

/-- C7: adjust_commission_cost_basis on a matching asset is a no-op when
the cost or the amount is zero, and otherwise folds the commission,
divided by the price multiplier for a future, into the cost basis while
leaving every other field unchanged. -/
theorem adjust_commission_c7 (p : Position) (asset : Asset) (cost : ℚ)
    (hasset : asset = p.asset) :
    ((cost = 0 ∨ p.amount = 0) → adjust_commission_cost_basis p asset cost = (p, none)) ∧
    (cost ≠ 0 → p.amount ≠ 0 →
      adjust_commission_cost_basis p asset cost =
        ({ p with cost_basis := (p.cost_basis * p.amount + (if asset.isFuture then cost / asset.price_multiplier else cost)) / p.amount }, none)) := by
  have hne : ¬ asset ≠ p.asset := by simp [hasset]
  constructor
  · rintro (hc | ha)
    · simp [adjust_commission_cost_basis, hne, hc]
    · simp [adjust_commission_cost_basis, hne, ha]
  · intro hc ha
    simp [adjust_commission_cost_basis, hne, hc, ha]

/-- The commission example position: 50 shares at cost basis 20. -/
def posW7 : Position :=
  { asset := assetA, amount := 50, cost_basis := 20, last_sale_price := 20,
    last_sale_date := some 0, take_profit_price := 0, stop_loss_price := 0 }

/-- A derivative asset with price multiplier 5. -/
def assetF : Asset :=
  { sid := 2, tick_size := 1 / 100, isFuture := true, price_multiplier := 5 }

/-- The commission example position on the derivative asset. -/
def posW7f : Position :=
  { asset := assetF, amount := 50, cost_basis := 20, last_sale_price := 20,
    last_sale_date := some 0, take_profit_price := 0, stop_loss_price := 0 }

theorem adjust_commission_c7_witness :
    (adjust_commission_cost_basis posW7 assetA 10).1.cost_basis = 101 / 5 ∧
    (adjust_commission_cost_basis posW7f assetF 10).1.cost_basis = 501 / 25 := by
  constructor
  · have h := (adjust_commission_c7 posW7 assetA 10 rfl).2 (by norm_num) (by norm_num [posW7])
    rw [h]
    norm_num [posW7, assetA]
  · have h := (adjust_commission_c7 posW7f assetF 10 rfl).2 (by norm_num) (by norm_num [posW7f])
    rw [h]
    norm_num [posW7f, assetF]

end ZiplineTrader

namespace ZiplineTrader

/-- A position on assetA with seven shares. -/
def posW8 : Position :=
  { asset := assetA, amount := 7, cost_basis := 10, last_sale_price := 10,
    last_sale_date := some 0, take_profit_price := 0, stop_loss_price := 0 }

/-- A cash dividend tagged to a different asset than posW8. -/
def divW8 : Dividend :=
  { asset := assetB, amount := 3 }

/-- A stock dividend tagged to a different asset than posW8. -/
def sdivW8 : StockDividend :=
  { asset := assetB, payment_asset := assetB, factor := 1 / 2 }

/-- C8 counterexample: earn_dividend and earn_stock_dividend perform no
asset check, so on an action tagged to a different asset they do not fail
with AssetMismatchError; they return the computed entitlement. -/
theorem asset_mismatch_c8_counterexample :
    posW8.asset ≠ divW8.asset ∧
    earn_dividend posW8 divW8 = 21 ∧
    posW8.asset ≠ sdivW8.asset ∧
    earn_stock_dividend posW8 sdivW8 = (assetB, 3) := by
  refine ⟨?_, ?_, ?_, ?_⟩ <;>
    norm_num [posW8, divW8, sdivW8, earn_dividend, earn_stock_dividend, assetA, assetB]

/-- C8 amended: merge, applySplit and adjustCommissionCostBasis fail with
AssetMismatchError on a mismatched asset and leave every field unchanged,
while earnDividend and earnStockDividend perform no asset check: they
never fail and return the entitlement computed from the action without
mutating the position. -/
theorem asset_mismatch_c8_amended :
    (∀ (quant : Quantizer) (p : Position) (txn : Transaction), p.asset ≠ txn.asset →
      update quant p txn = (p, some PosError.assetMismatch)) ∧
    (∀ (p : Position) (a : Asset) (f : ℚ), p.asset ≠ a →
      handle_split p a f = ((p, 0), some PosError.assetMismatch)) ∧
    (∀ (p : Position) (a : Asset) (c : ℚ), a ≠ p.asset →
      adjust_commission_cost_basis p a c = (p, some PosError.assetMismatch)) ∧
    (∀ (p : Position) (d : Dividend), earn_dividend p d = p.amount * d.amount) ∧
    (∀ (p : Position) (sd : StockDividend),
      earn_stock_dividend p sd = (sd.payment_asset, (⌊p.amount * sd.factor⌋ : ℚ))) := by
  refine ⟨update_mismatch, ?_, ?_, fun p d => rfl, fun p sd => rfl⟩
  · intro p a f h
    simp [handle_split, h]
  · intro p a c h
    simp [adjust_commission_cost_basis, h]

/-- A transaction on a different asset than posW8. -/
def txnW8 : Transaction :=
  { asset := assetB, amount := 5, dt := 1, price := 7,
    take_profit_price := none, stop_loss_price := none }

theorem asset_mismatch_c8_amended_witness :
    update idQuant posW8 txnW8 = (posW8, some PosError.assetMismatch) :=
  asset_mismatch_c8_amended.1 idQuant posW8 txnW8
    (by norm_num [posW8, txnW8, assetA, assetB])

/-- C10: with an effective amount of exactly zero, update_exit_prices
validates with direction +1 as for a long position, while the direction
flags passed to the quantizer for both levels coincide with the flags of
a short position and differ from those of a long one; an omitted amount
argument defaults to the stored amount. -/
theorem flat_direction_c10 :
    sign1 0 = 1 ∧
    tp_quant_direction 0 = tp_quant_direction (-1) ∧
    sl_quant_direction 0 = sl_quant_direction (-1) ∧
    tp_quant_direction 0 ≠ tp_quant_direction 1 ∧
    sl_quant_direction 0 ≠ sl_quant_direction 1 ∧
    (∀ (quant : Quantizer) (p : Position) (tpO slO lspO : Option ℚ), p.amount = 0 →
      update_exit_prices quant p tpO slO none lspO =
        update_exit_prices quant p tpO slO (some 0) lspO) := by
  refine ⟨by norm_num [sign1], by norm_num [tp_quant_direction],
    by norm_num [sl_quant_direction], by norm_num [tp_quant_direction],
    by norm_num [sl_quant_direction], ?_⟩
  intro quant p tpO slO lspO h
  simp [update_exit_prices, h]

/-- A flat position with both exit levels set. -/
def posW10 : Position :=
  { asset := assetA, amount := 0, cost_basis := 0, last_sale_price := 4,
    last_sale_date := some 0, take_profit_price := 1, stop_loss_price := 1 }

theorem flat_direction_c10_witness :
    update_exit_prices idQuant posW10 (some 5) none none (some 4) =
      update_exit_prices idQuant posW10 (some 5) none (some 0) (some 4) :=
  flat_direction_c10.2.2.2.2.2 idQuant posW10 (some 5) none (some 4) rfl

end ZiplineTrader

namespace ZiplineTrader

/-- C1: when the combined size stays at least 1e-3 away from zero, merge
recomputes the cost basis by sign comparison: same sign gives the
size-weighted average, a dominating opposite-sign fill resets the basis
to the transaction price, and a smaller opposite-sign fill leaves the
basis unchanged. -/
theorem merge_cost_basis_c1 (quant : Quantizer) (p : Position) (txn : Transaction)
    (hasset : p.asset = txn.asset)
    (htot : 1 / 1000 ≤ |p.amount + txn.amount|) :
    (sign1 p.amount = sign1 txn.amount →
      (update quant p txn).1.cost_basis =
        (p.cost_basis * p.amount + txn.amount * txn.price) / (p.amount + txn.amount)) ∧
    (sign1 p.amount ≠ sign1 txn.amount → |p.amount| < |txn.amount| →
      (update quant p txn).1.cost_basis = txn.price) ∧
    (sign1 p.amount ≠ sign1 txn.amount → |txn.amount| ≤ |p.amount| →
      (update quant p txn).1.cost_basis = p.cost_basis) := by
  have hflat : ¬ |p.amount + txn.amount| < 1 / 1000 := not_lt.mpr htot
  rw [update_fst_cost_basis quant p txn hasset hflat]
  refine ⟨fun hs => ?_, fun hs habs => ?_, fun hs habs => ?_⟩
  · rw [if_neg (by simp [hs])]
  · rw [if_pos hs, if_pos habs]
  · rw [if_pos hs, if_neg (not_lt.mpr habs)]

/-- A concrete long position used to instantiate the weighted average. -/
def posW1 : Position :=
  { asset := assetA, amount := 100, cost_basis := 10, last_sale_price := 10,
    last_sale_date := some 0, take_profit_price := 0, stop_loss_price := 0 }

/-- A concrete same-direction buy on posW1. -/
def txnW1 : Transaction :=
  { asset := assetA, amount := 50, dt := 1, price := 13,
    take_profit_price := none, stop_loss_price := none }

theorem merge_cost_basis_c1_witness :
    sign1 posW1.amount = sign1 txnW1.amount ∧
    (update idQuant posW1 txnW1).1.cost_basis = 11 := by
  have hsg : sign1 posW1.amount = sign1 txnW1.amount := by
    norm_num [posW1, txnW1, sign1]
  refine ⟨hsg, ?_⟩
  have habs : (1 : ℚ) / 1000 ≤ |posW1.amount + txnW1.amount| := by
    norm_num [posW1, txnW1, abs_of_nonneg]
  have h := (merge_cost_basis_c1 idQuant posW1 txnW1 rfl habs).1 hsg
  rw [h]
  norm_num [posW1, txnW1]

end ZiplineTrader
